import Mathlib

/-!
Verification of the OpenCodeOrchestra task-delegation core, shallowly embedded
from the TypeScript sources: the session depth resolver (`session/depth.ts`),
the task dispatcher (`tool/task.ts`), the completion-signal tool
(`tool/finish-task.ts`) and the depth-aware client wrapper (ancestry
visibility gate).

Sessions are keyed by string identifiers.  The session store is modelled as a
function from identifiers to optional session records; a lookup that throws in
the TypeScript code is modelled as returning `none` at the call sites that
catch the error.  JavaScript string truthiness (`""` is falsy) is modelled
explicitly wherever the source tests an identifier for truthiness.
-/

/-- A session record, reduced to the one attribute the verified components
read: the optional ancestry link (`parentID`). -/
structure SessionInfo where
  parentID : Option String
deriving Repr, DecidableEq

/-- The session store: `Session.get` as a partial map from identifiers to
session records.  `none` models both "no such session" and a lookup failure
at call sites that catch lookup errors. -/
def SessionStore : Type := String → Option SessionInfo

/-- Hop ceiling of the standalone depth resolver (`MAX_DEPTH` in
`session/depth.ts`). -/
def MAX_DEPTH : Nat := 100

/-- Loop body of `calculateDepth` from `session/depth.ts`.  The source loop
runs `while (currentID && depth < MAX_DEPTH)`; since `depth` increases by one
per iteration, the remaining budget `fuel = MAX_DEPTH - depth` decreases and
drives the recursion.  Inside the loop: cycle check against the visited set,
then the (error-catching) store lookup, then `if (!session?.parentID) break`
— which also breaks on an empty-string parent, since `""` is falsy. -/
def calculateDepthLoop (store : SessionStore) : Nat → String → List String → Nat → Nat
  | 0, _, _, depth => depth
  | fuel + 1, currentID, visited, depth =>
    if currentID = "" then depth
    else if visited.contains currentID then depth
    else
      match store currentID with
      | none => depth
      | some session =>
        match session.parentID with
        | none => depth
        | some p =>
          if p = "" then depth
          else calculateDepthLoop store fuel p (currentID :: visited) (depth + 1)

/-- `calculateDepth` from `session/depth.ts`: walk the ancestry chain with a
visited set and the `MAX_DEPTH` ceiling, returning the accumulated depth. -/
def calculateDepth (store : SessionStore) (sessionID : String) : Nat :=
  calculateDepthLoop store MAX_DEPTH sessionID [] 0

/-- Loop body of the depth walk inlined in `TaskTool.execute` (`tool/task.ts`).
Unlike the standalone resolver it keeps NO visited set and has NO hop
ceiling: `while (currentID) { ... }`.  The `fuel` argument is ours, not the
code's: `dispatchDepthLoop store fuel sid d = none` means the loop has not
terminated within `fuel` iterations. -/
def dispatchDepthLoop (store : SessionStore) : Nat → String → Nat → Option Nat
  | 0, _, _ => none
  | fuel + 1, currentID, depth =>
    if currentID = "" then some depth
    else
      match store currentID with
      | none => some depth
      | some sess =>
        match sess.parentID with
        | none => some depth
        | some p =>
          if p = "" then some depth
          else dispatchDepthLoop store fuel p (depth + 1)

/-- The dispatcher's inline depth walk, fuel-indexed: `some d` when the loop
returns `d` within `fuel` iterations, `none` when it is still running. -/
def dispatchCalculateDepth (store : SessionStore) (fuel : Nat) (sessionID : String) : Option Nat :=
  dispatchDepthLoop store fuel sessionID 0

/-- The effective ancestry step both walks take from a session: the parent
identifier when the session resolves and its `parentID` is truthy, `none`
when the session is missing, rootless, or has an empty-string parent. -/
def effParent (store : SessionStore) (id : String) : Option String :=
  match store id with
  | none => none
  | some s =>
    match s.parentID with
    | none => none
    | some p => if p = "" then none else some p

/-- Iterated ancestry step: `stepN store n o` follows `n` effective parent
hops starting from the optional identifier `o`. -/
def stepN (store : SessionStore) : Nat → Option String → Option String
  | 0, o => o
  | n + 1, o => stepN store n (o.bind (effParent store))

/-- Ancestry-chain predicate: `linkedChainB store l` holds when consecutive
elements of `l` are linked by effective parent hops and the last element is
rootless (its effective parent is `none`).  A list `[x0, ..., xN]` is a chain
of `N` ancestry hops from `x0` to the rootless session `xN`. -/
def linkedChainB (store : SessionStore) : List String → Bool
  | [] => true
  | [x] => (effParent store x).isNone
  | x :: y :: rest => effParent store x == some y && linkedChainB store (y :: rest)

/-- Child depth transition rule from `TaskTool.execute` (`tool/task.ts`):
depth-0 caller targeting the `"orchestrator"` role yields 1; depth-0 caller
targeting any other role yields 2 (the orchestrator tier is skipped);
otherwise caller depth + 1. -/
def childDepth (currentDepth : Nat) (subagentType : String) : Nat :=
  if currentDepth = 0 && subagentType = "orchestrator" then 1
  else if currentDepth = 0 then 2
  else currentDepth + 1

/-- Concurrency-mode rule from `TaskTool.execute` (`tool/task.ts`):
`childDepth >= 2 ? true : (agent.singleShot ?? true)`.  The agent's
`singleShot` flag is optional at this call site (`?? true`); the agent schema
in `agent/agent.ts` additionally zod-defaults it to `true`. -/
def isSingleShot (cd : Nat) (agentSingleShot : Option Bool) : Bool :=
  if cd ≥ 2 then true else agentSingleShot.getD true

/-- `Array.prototype.join(sep)` on a list of strings. -/
def joinSep (sep : String) : List String → String
  | [] => ""
  | [x] => x
  | x :: y :: rest => x ++ sep ++ joinSep sep (y :: rest)

/-- The tagged trailer appended to every successful dispatch output
(`tool/task.ts`, both branches):
`["<task_metadata>", "session_id: " + id, "</task_metadata>"].join("\n")`. -/
def taskMetadataTrailer (sessionId : String) : String :=
  joinSep "\n" ["<task_metadata>", "session_id: " ++ sessionId, "</task_metadata>"]

/-- Output string of the single-shot branch of `TaskTool.execute`:
the final text, a blank line, and the trailer. -/
def singleShotOutput (text : String) (sessionId : String) : String :=
  text ++ "\n\n" ++ taskMetadataTrailer sessionId

/-- Completion status enum of the finish-task signal. -/
inductive FinishStatus
  | completed
  | failed
  | cancelled
deriving Repr, DecidableEq

/-- `status.toUpperCase()` for the persistent-branch output header. -/
def FinishStatus.toUpper : FinishStatus → String
  | .completed => "COMPLETED"
  | .failed => "FAILED"
  | .cancelled => "CANCELLED"

/-- Lowercase wire form of the status. -/
def FinishStatus.toStr : FinishStatus → String
  | .completed => "completed"
  | .failed => "failed"
  | .cancelled => "cancelled"

/-- Learnings section of the persistent-branch output:
empty when `learnings` is absent or empty, otherwise a bulleted block. -/
def learningsBlock (learnings : Option (List String)) : String :=
  match learnings with
  | none => ""
  | some ls =>
    if ls.length = 0 then ""
    else "\n\nLearnings:\n" ++ joinSep "\n" (ls.map (fun l => "- " ++ l))

/-- Output string of the persistent branch of `TaskTool.execute`:
`[STATUS] summary`, the optional learnings block, a blank line, and the
trailer. -/
def persistentOutput (status : FinishStatus) (summary : String)
    (learnings : Option (List String)) (sessionId : String) : String :=
  "[" ++ status.toUpper ++ "] " ++ summary ++ learningsBlock learnings
    ++ "\n\n" ++ taskMetadataTrailer sessionId

/-- Parameters of the finish-task tool (`tool/finish-task.ts`). -/
structure FinishTaskParams where
  summary : String
  status : FinishStatus
  learnings : Option (List String)
deriving Repr, DecidableEq

/-- Confirmation metadata returned by a successful finish-task invocation. -/
structure FinishTaskMetadata where
  parentSessionID : String
  childSessionID : String
  status : FinishStatus
  summary : String
  learnings : Option (List String)
deriving Repr, DecidableEq

/-- Full result of a successful finish-task invocation. -/
structure FinishTaskResult where
  title : String
  metadata : FinishTaskMetadata
  output : String
deriving Repr, DecidableEq

/-- `FinishTaskTool.execute` from `tool/finish-task.ts`: resolve the invoking
session (`if (!session) throw "Cannot find current session"`), require a
truthy ancestry link (`if (!parentID) throw ...`, which also fires on an
empty-string parent), and on success return the confirmation carrying parent
and child identifiers plus the submitted status, summary and learnings. -/
def finishTaskExecute (store : SessionStore) (sessionID : String)
    (params : FinishTaskParams) : Except String FinishTaskResult :=
  match store sessionID with
  | none => .error "Cannot find current session"
  | some session =>
    match session.parentID with
    | none => .error "finish_task can only be called from a child session (orchestrator/subagent)"
    | some parentID =>
      if parentID = "" then
        .error "finish_task can only be called from a child session (orchestrator/subagent)"
      else
        .ok
          { title := "Task " ++ params.status.toStr ++ ": " ++ params.summary.take 50 ++ "..."
            metadata :=
              { parentSessionID := parentID
                childSessionID := sessionID
                status := params.status
                summary := params.summary
                learnings := params.learnings }
            output := "Task " ++ params.status.toStr
              ++ ". Control returned to parent agent.\n\nSummary: " ++ params.summary }

/-- Session payload of a read result, split into the ancestry link and the
remaining fields (type parameter `ρ`), which the gate must pass through
unchanged. -/
structure SessionData (ρ : Type) where
  parentID : Option String
  rest : ρ
deriving Repr, DecidableEq

/-- A session-read result as seen by the ancestry visibility gate: optional
session payload (`result.data`) plus all other response fields (`σ`). -/
structure GetResult (ρ σ : Type) where
  data : Option (SessionData ρ)
  rest : σ
deriving Repr, DecidableEq

/-- `shouldApplyPruning` from `session/depth.ts`: `depth <= 1`. -/
def shouldApplyPruning (depth : Nat) : Bool :=
  depth ≤ 1

/-- `wrappedGet` from the depth-aware client wrapper: given the session
identifier extracted from the request path (`args[0]?.path?.id`, `none` when
absent) and the original read result, return the result unchanged when there
is no identifier, no data, or no truthy `parentID`; otherwise consult the
depth computation (`depthOf`, an `Except` to model the surrounding
`try`/`catch`): on error return the original result (fail open), on depth
`<= 1` return the result with `parentID` removed and everything else intact,
on depth `>= 2` return the original result. -/
def wrappedGet {ρ σ : Type} (depthOf : String → Except String Nat)
    (sessionID : Option String) (result : GetResult ρ σ) : GetResult ρ σ :=
  match sessionID with
  | none => result
  | some sid =>
    match result.data with
    | none => result
    | some d =>
      match d.parentID with
      | none => result
      | some pid =>
        if pid = "" then result
        else
          match depthOf sid with
          | .error _ => result
          | .ok depth =>
            if shouldApplyPruning depth then
              { result with data := some { d with parentID := none } }
            else result

/-- The gate as deployed: depth computed by the standalone resolver over the
session store. -/
def wrappedGetStore {ρ σ : Type} (store : SessionStore)
    (sessionID : Option String) (result : GetResult ρ σ) : GetResult ρ σ :=
  wrappedGet (fun sid => .ok (calculateDepth store sid)) sessionID result

/-- Status field of an execution-part event. -/
inductive ToolStatus
  | pending
  | running
  | completed
  | errored
deriving Repr, DecidableEq

/-- Optional completion metadata carried by a part event, read by the
persistent-branch finish listener with defaults
(`metadata?.status ?? "completed"`, `metadata?.summary ?? "Task completed"`). -/
structure PartMetadata where
  status : Option FinishStatus
  summary : Option String
  learnings : Option (List String)
deriving Repr, DecidableEq

/-- An execution-part-updated event as filtered by the persistent-branch
finish listener in `tool/task.ts`. -/
structure PartEvent where
  sessionID : String
  isToolPart : Bool
  tool : String
  status : ToolStatus
  metadata : Option PartMetadata
deriving Repr, DecidableEq

/-- Events observed by a pending persistent-mode dispatch, in arrival order:
bus part events and the caller's abort signal. -/
inductive TaskEvent
  | part (e : PartEvent)
  | abort
deriving Repr, DecidableEq

/-- The completion signal the persistent branch resolves with. -/
structure FinishSignal where
  status : FinishStatus
  summary : String
  learnings : Option (List String)
deriving Repr, DecidableEq

/-- Filter of the finish listener: same session, a tool part, tool
`"finish_task"`, status completed. -/
def matchesFinishSignal (childSessionID : String) (e : PartEvent) : Bool :=
  e.sessionID == childSessionID && e.isToolPart && e.tool == "finish_task"
    && e.status == ToolStatus.completed

/-- Signal extracted from a matching event, with the listener's defaults. -/
def signalOfEvent (e : PartEvent) : FinishSignal :=
  { status := ((e.metadata).bind (fun m => m.status)).getD .completed
    summary := ((e.metadata).bind (fun m => m.summary)).getD "Task completed"
    learnings := (e.metadata).bind (fun m => m.learnings) }

/-- State of a persistent-mode dispatch: whether (and how) the awaited
promise has settled, and which of the two bus subscriptions the dispatch
created are still registered (`finishSubActive` is the finish listener,
`unsubActive` the tool-metadata summary listener created earlier via
`Bus.subscribe`). -/
structure PersistentState where
  settled : Option (Except String FinishSignal)
  finishSubActive : Bool
  unsubActive : Bool
deriving Repr

/-- One event step of the persistent branch of `TaskTool.execute`.  On a
matching finish event the listener unsubscribes itself and resolves, after
which the awaiting code runs `unsub()` — both subscriptions are gone.  On
abort the handler runs `finishUnsub(); reject(new Error("Task aborted"))`;
the rejection propagates out of `execute` past the `unsub()` call, so the
summary subscription stays registered.  After settling, further events no
longer change the subscription state. -/
def persistentStep (childSessionID : String) (st : PersistentState)
    (ev : TaskEvent) : PersistentState :=
  match st.settled with
  | some _ => st
  | none =>
    match ev with
    | .abort =>
      { settled := some (.error "Task aborted")
        finishSubActive := false
        unsubActive := st.unsubActive }
    | .part e =>
      if st.finishSubActive && matchesFinishSignal childSessionID e then
        { settled := some (.ok (signalOfEvent e))
          finishSubActive := false
          unsubActive := false }
      else st

/-- A persistent-mode dispatch driven by an event trace, starting from the
state just after both subscriptions are registered. -/
def persistentDispatch (childSessionID : String) (events : List TaskEvent) :
    PersistentState :=
  events.foldl (persistentStep childSessionID)
    { settled := none, finishSubActive := true, unsubActive := true }

/-- Reachability along effective ancestry hops. -/
def reachableFrom (store : SessionStore) (start target : String) : Prop :=
  ∃ n, stepN store n (some start) = some target

/-- The ancestry graph has a cycle of length `k` through `x`: following `k`
effective parent hops from `x` returns to `x`. -/
def hasCycleOfLength (store : SessionStore) (x : String) (k : Nat) : Prop :=
  0 < k ∧ stepN store k (some x) = some x

/-- Concrete store with a cyclic ancestry chain: `s0`'s parent is `s1`, and
`s1` is its own parent — a cycle of length 1 reached after one hop. -/
def cycStore : SessionStore := fun id =>
  if id = "s0" then some { parentID := some "s1" }
  else if id = "s1" then some { parentID := some "s1" }
  else none

/-- Store holding exactly the acyclic ancestry chain given by the list:
each element's parent is the next element, the last element is rootless. -/
def chainStore : List String → String → Option SessionInfo
  | [], _ => none
  | [x], id => if id = x then some { parentID := none } else none
  | x :: y :: rest, id =>
    if id = x then some { parentID := some y } else chainStore (y :: rest) id

/-- Identifiers `s0, ..., s101`: an acyclic ancestry chain of 101 hops, one
more than the resolver's `MAX_DEPTH` ceiling. -/
def longChainIDs : List String := (List.range 102).map (fun n => "s" ++ toString n)

/-- Two-session store used as a concrete witness input: `child`'s parent is
`root`, `root` is rootless. -/
def demoStore : SessionStore := fun id =>
  if id = "root" then some { parentID := none }
  else if id = "child" then some { parentID := some "root" } else none

/-- A concrete session-read result for `child` as seen by the gate. -/
def demoResult : GetResult Unit Unit :=
  { data := some { parentID := some "root", rest := () }, rest := () }

/-- Concrete finish-task parameters used as a witness input. -/
def demoParams : FinishTaskParams :=
  { summary := "did the thing", status := .completed, learnings := some ["l1"] }

/-! ## Helper lemmas -/

/-- The resolver's loop can add at most `fuel` to the accumulated depth. -/
theorem calculateDepthLoop_le (store : SessionStore) :
    ∀ (fuel : Nat) (cur : String) (visited : List String) (depth : Nat),
      calculateDepthLoop store fuel cur visited depth ≤ depth + fuel := by
  intro fuel
  induction fuel with
  | zero => intro cur visited depth; simp [calculateDepthLoop]
  | succ f ih =>
    intro cur visited depth
    unfold calculateDepthLoop
    split
    · omega
    · split
      · omega
      · split
        · omega
        · split
          · omega
          · split
            · omega
            · rename_i p hpar hp
              have h := ih p (cur :: visited) (depth + 1)
              omega

/-- Inversion of an effective ancestry hop. -/
theorem effParent_eq_some (store : SessionStore) (x y : String) :
    effParent store x = some y ↔
      ∃ s, store x = some s ∧ s.parentID = some y ∧ y ≠ "" := by
  constructor
  · intro h
    cases hstore : store x with
    | none => simp [effParent, hstore] at h
    | some s =>
      cases hpar : s.parentID with
      | none => simp [effParent, hstore, hpar] at h
      | some p =>
        by_cases hp : p = ""
        · simp [effParent, hstore, hpar, hp] at h
        · simp only [effParent, hstore, hpar, if_neg hp, Option.some_inj] at h
          exact ⟨s, rfl, by rw [hpar, h], by rw [← h]; exact hp⟩
  · rintro ⟨s, hstore, hpar, hy⟩
    simp [effParent, hstore, hpar, hy]

/-- Unfolding one hop of the iterated ancestry step. -/
theorem stepN_succ_some (store : SessionStore) (n : Nat) (x : String) :
    stepN store (n + 1) (some x) = stepN store n (effParent store x) := rfl

/-- The resolver loop at a fresh, truthy identifier with no effective parent
returns the accumulated depth. -/
theorem calculateDepthLoop_step_none (store : SessionStore) (f : Nat) (x : String)
    (visited : List String) (depth : Nat) (hx : x ≠ "") (hxv : x ∉ visited)
    (heff : effParent store x = none) :
    calculateDepthLoop store (f + 1) x visited depth = depth := by
  cases hstore : store x with
  | none => simp [calculateDepthLoop, hx, hxv, hstore]
  | some s =>
    cases hpar : s.parentID with
    | none => simp [calculateDepthLoop, hx, hxv, hstore, hpar]
    | some p =>
      have hp : p = "" := by
        by_contra hp
        simp [effParent, hstore, hpar, hp] at heff
      simp [calculateDepthLoop, hx, hxv, hstore, hpar, hp]

/-- The resolver loop at a fresh, truthy identifier with an effective parent
recurses on the parent, accumulating one more hop. -/
theorem calculateDepthLoop_step_some (store : SessionStore) (f : Nat) (x p : String)
    (visited : List String) (depth : Nat) (hx : x ≠ "") (hxv : x ∉ visited)
    (heff : effParent store x = some p) :
    calculateDepthLoop store (f + 1) x visited depth
      = calculateDepthLoop store f p (x :: visited) (depth + 1) := by
  obtain ⟨s, hstore, hpar, hp⟩ := (effParent_eq_some store x p).mp heff
  simp [calculateDepthLoop, hx, hxv, hstore, hpar, hp]

/-- The dispatcher's inline walk at a truthy identifier with no effective
parent returns the accumulated depth. -/
theorem dispatchDepthLoop_step_none (store : SessionStore) (f : Nat) (x : String)
    (depth : Nat) (hx : x ≠ "") (heff : effParent store x = none) :
    dispatchDepthLoop store (f + 1) x depth = some depth := by
  cases hstore : store x with
  | none => simp [dispatchDepthLoop, hx, hstore]
  | some s =>
    cases hpar : s.parentID with
    | none => simp [dispatchDepthLoop, hx, hstore, hpar]
    | some p =>
      have hp : p = "" := by
        by_contra hp
        simp [effParent, hstore, hpar, hp] at heff
      simp [dispatchDepthLoop, hx, hstore, hpar, hp]

/-- The dispatcher's inline walk at a truthy identifier with an effective
parent recurses on the parent. -/
theorem dispatchDepthLoop_step_some (store : SessionStore) (f : Nat) (x p : String)
    (depth : Nat) (hx : x ≠ "") (heff : effParent store x = some p) :
    dispatchDepthLoop store (f + 1) x depth = dispatchDepthLoop store f p (depth + 1) := by
  obtain ⟨s, hstore, hpar, hp⟩ := (effParent_eq_some store x p).mp heff
  simp [dispatchDepthLoop, hx, hstore, hpar, hp]

/-- On an acyclic ancestry chain of nonempty identifiers that is disjoint
from the visited set and fits in the remaining fuel, the resolver loop adds
exactly the number of remaining hops. -/
theorem calculateDepthLoop_chain (store : SessionStore) :
    ∀ (rest : List String) (x : String) (visited : List String) (depth fuel : Nat),
      linkedChainB store (x :: rest) = true →
      (x :: rest).Nodup →
      (∀ y ∈ x :: rest, y ≠ "") →
      (∀ y ∈ x :: rest, y ∉ visited) →
      rest.length ≤ fuel →
      calculateDepthLoop store fuel x visited depth = depth + rest.length := by
  intro rest
  induction rest with
  | nil =>
    intro x visited depth fuel hlink _ hne hfresh _
    have hx : x ≠ "" := hne x (by simp)
    have hxv : x ∉ visited := hfresh x (by simp)
    have heff : effParent store x = none := by
      simpa [linkedChainB, Option.isNone_iff_eq_none] using hlink
    cases fuel with
    | zero => simp [calculateDepthLoop]
    | succ f => simp [calculateDepthLoop_step_none store f x visited depth hx hxv heff]
  | cons y rest' ih =>
    intro x visited depth fuel hlink hnodup hne hfresh hfuel
    have hx : x ≠ "" := hne x (by simp)
    have hxv : x ∉ visited := hfresh x (by simp)
    have hand := hlink
    simp only [linkedChainB, Bool.and_eq_true, beq_iff_eq] at hand
    obtain ⟨heff, hlink'⟩ := hand
    cases fuel with
    | zero => simp at hfuel
    | succ f =>
      rw [calculateDepthLoop_step_some store f x y visited depth hx hxv heff]
      have hxtail : x ∉ y :: rest' := (List.nodup_cons.mp hnodup).1
      have hres := ih y (x :: visited) (depth + 1) f hlink'
        (List.nodup_cons.mp hnodup).2
        (fun z hz => hne z (List.mem_cons_of_mem x hz))
        (fun z hz => by
          simp only [List.mem_cons, not_or]
          exact ⟨fun hzx => hxtail (hzx ▸ hz), hfresh z (List.mem_cons_of_mem x hz)⟩)
        (by simpa using hfuel)
      rw [hres]
      simp [List.length_cons]
      omega

/-- If every iterate of the effective ancestry step from `x` stays on a
truthy session (the chain never reaches a rootless or missing session), the
dispatcher's inline walk does not terminate within any amount of fuel. -/
theorem dispatchDepthLoop_none (store : SessionStore) :
    ∀ (fuel : Nat) (x : String) (d : Nat),
      (∀ n, ∃ y, stepN store n (some x) = some y ∧ y ≠ "") →
      dispatchDepthLoop store fuel x d = none := by
  intro fuel
  induction fuel with
  | zero => intro x d _; rfl
  | succ f ih =>
    intro x d h
    obtain ⟨y0, hy0, hne0⟩ := h 0
    have hx : x ≠ "" := by
      have : x = y0 := by simpa [stepN] using hy0
      rw [this]; exact hne0
    obtain ⟨y1, hy1, hne1⟩ := h 1
    have heff : effParent store x = some y1 := by
      simpa [stepN_succ_some, stepN] using hy1
    rw [dispatchDepthLoop_step_some store f x y1 d hx heff]
    apply ih y1 (d + 1)
    intro n
    have hn := h (n + 1)
    rwa [stepN_succ_some, heff] at hn

/-- An already-settled persistent dispatch is unaffected by further events. -/
theorem persistentStep_settled (csid : String) (st : PersistentState)
    (ev : TaskEvent) (h : st.settled.isSome) : persistentStep csid st ev = st := by
  cases hset : st.settled with
  | none => rw [hset] at h; simp at h
  | some r => simp [persistentStep, hset]

/-- Folding further events over a settled persistent dispatch is a no-op. -/
theorem foldl_persistentStep_settled (csid : String) :
    ∀ (es : List TaskEvent) (st : PersistentState), st.settled.isSome →
      es.foldl (persistentStep csid) st = st := by
  intro es
  induction es with
  | nil => intro st _; rfl
  | cons e es ih =>
    intro st h
    rw [List.foldl_cons, persistentStep_settled csid st e h]
    exact ih st h

/-- Iterates of the effective ancestry step of `cycStore` starting at `s1`
stay at `s1` forever. -/
theorem cycStore_s1_fixed : ∀ n, stepN cycStore n (some "s1") = some "s1" := by
  intro n
  induction n with
  | zero => rfl
  | succ m ih =>
    rw [stepN_succ_some, show effParent cycStore "s1" = some "s1" from by decide]
    exact ih

/-- Every iterate of the effective ancestry step of `cycStore` from `s0`
lands on a truthy session: the cyclic chain never ends. -/
theorem cycStore_alive : ∀ n, ∃ y, stepN cycStore n (some "s0") = some y ∧ y ≠ "" := by
  intro n
  cases n with
  | zero => exact ⟨"s0", rfl, by decide⟩
  | succ m =>
    refine ⟨"s1", ?_, by decide⟩
    rw [stepN_succ_some, show effParent cycStore "s0" = some "s1" from by decide]
    exact cycStore_s1_fixed m

/-! ## Claim theorems -/

/-- C1: the dispatcher computes the child depth by the transition rule —
a depth-0 caller targeting the `"orchestrator"` role yields child depth 1, a
depth-0 caller targeting any other role yields child depth 2, and a caller at
depth ≥ 1 yields child depth caller-depth + 1. -/
theorem childDepth_transition_rule (d : Nat) (roleA roleB : String)
    (hA : roleA ≠ "orchestrator") (hd : 1 ≤ d) :
    childDepth 0 "orchestrator" = 1 ∧ childDepth 0 roleA = 2 ∧
      childDepth d roleB = d + 1 := by
  refine ⟨rfl, ?_, ?_⟩
  · simp [childDepth, hA]
  · have hd0 : d ≠ 0 := by omega
    simp [childDepth, hd0]

/-- C1 witness: the transition rule evaluated at caller depth 0 targeting
the orchestrator and a non-orchestrator role, and at caller depth 3. -/
theorem childDepth_transition_rule_witness :
    childDepth 0 "orchestrator" = 1 ∧ childDepth 0 "investigator" = 2 ∧
      childDepth 3 "orchestrator" = 3 + 1 :=
  childDepth_transition_rule 3 "investigator" "orchestrator" (by decide) (by decide)

/-- C2: every dispatch whose computed child depth is at least 2 executes
single-shot, whatever the role's configured `singleShot` disposition is
(absent, `true`, or the persistent `false`). -/
theorem depth2_forces_singleShot (cd : Nat) (cfg : Option Bool) (h : 2 ≤ cd) :
    isSingleShot cd cfg = true := by
  unfold isSingleShot
  rw [if_pos h]

/-- C2 witness: child depth 2 with a role configured persistent
(`singleShot: false`) still executes single-shot. -/
theorem depth2_forces_singleShot_witness : isSingleShot 2 (some false) = true :=
  depth2_forces_singleShot 2 (some false) (by decide)

/-- C10: at child depth 0 or 1 with no configured `singleShot` disposition,
the dispatcher defaults to single-shot mode. -/
theorem singleShot_default_true (cd : Nat) (h : cd = 0 ∨ cd = 1) :
    isSingleShot cd none = true := by
  rcases h with h | h <;> subst h <;> rfl

/-- C10 witness: child depth 1 with an absent disposition is single-shot. -/
theorem singleShot_default_true_witness : isSingleShot 1 none = true :=
  singleShot_default_true 1 (Or.inr rfl)

/-- C8: whenever the depth computation fails (the `try`/`catch` around
`calculateDepth` in the client wrapper catches an error), the ancestry
visibility gate returns the unmodified original read result. -/
theorem gate_fails_open {ρ σ : Type} (msg : String) (sessionID : Option String)
    (result : GetResult ρ σ) :
    wrappedGet (fun _ => .error msg) sessionID result = result := by
  cases sessionID with
  | none => rfl
  | some sid =>
    cases hdata : result.data with
    | none => simp [wrappedGet, hdata]
    | some d =>
      cases hpid : d.parentID with
      | none => simp [wrappedGet, hdata, hpid]
      | some pid =>
        by_cases hp : pid = "" <;> simp [wrappedGet, hdata, hpid, hp]

/-- C9: every successful dispatch output, in either concurrency mode, is a
prefix followed by the trailer block, and the trailer is exactly
`<task_metadata>` newline `session_id: <id>` newline `</task_metadata>`, so
the child session identifier is recoverable from the plain text. -/
theorem output_ends_with_trailer (text sessionId summary : String)
    (status : FinishStatus) (learnings : Option (List String)) :
    taskMetadataTrailer sessionId
        = "<task_metadata>\nsession_id: " ++ sessionId ++ "\n</task_metadata>" ∧
    singleShotOutput text sessionId
        = (text ++ "\n\n") ++ taskMetadataTrailer sessionId ∧
    persistentOutput status summary learnings sessionId
        = ("[" ++ status.toUpper ++ "] " ++ summary ++ learningsBlock learnings ++ "\n\n")
            ++ taskMetadataTrailer sessionId := by
  refine ⟨?_, rfl, rfl⟩
  show ("<task_metadata>" ++ "\n") ++ ((("session_id: " ++ sessionId) ++ "\n") ++ "</task_metadata>")
      = "<task_metadata>\nsession_id: " ++ sessionId ++ "\n</task_metadata>"
  rw [String.append_assoc ("session_id: " ++ sessionId) "\n" "</task_metadata>"]
  rw [show ("\n" ++ "</task_metadata>" : String) = "\n</task_metadata>" from rfl]
  rw [String.append_assoc "session_id: " sessionId "\n</task_metadata>"]
  rw [show ("<task_metadata>" ++ "\n" : String) = "<task_metadata>\n" from rfl]
  rw [← String.append_assoc "<task_metadata>\n" "session_id: " (sessionId ++ "\n</task_metadata>")]
  rw [show ("<task_metadata>\n" ++ "session_id: " : String) = "<task_metadata>\nsession_id: " from rfl]
  rw [String.append_assoc "<task_metadata>\nsession_id: " sessionId "\n</task_metadata>"]

/-- C5: for a session read through the ancestry visibility gate whose result
carries session data, with a well-formed ancestry link (session identifiers
produced by the identifier scheme are never the empty string): if the
session's computed depth is at most 1 the returned value is the original with
the ancestry link made absent and every other field unchanged; if the
computed depth is at least 2 the returned value is the unmodified original. -/
theorem gate_depth_policy {ρ σ : Type} (store : SessionStore) (sid : String)
    (result : GetResult ρ σ) (d : SessionData ρ)
    (hdata : result.data = some d)
    (hwf : d.parentID ≠ some "") :
    (calculateDepth store sid ≤ 1 →
      wrappedGetStore store (some sid) result
        = { data := some { parentID := none, rest := d.rest }, rest := result.rest }) ∧
    (2 ≤ calculateDepth store sid →
      wrappedGetStore store (some sid) result = result) := by
  obtain ⟨rdata, rrest⟩ := result
  simp only [GetResult.mk.injEq] at hdata ⊢
  subst hdata
  obtain ⟨dp, dr⟩ := d
  cases dp with
  | none =>
    constructor
    · intro _
      simp [wrappedGetStore, wrappedGet]
    · intro _
      simp [wrappedGetStore, wrappedGet]
  | some pid =>
    have hp : pid ≠ "" := by
      intro h
      exact hwf (by rw [h])
    constructor
    · intro hle
      simp [wrappedGetStore, wrappedGet, hp, shouldApplyPruning, hle]
    · intro hge
      have hnle : ¬(calculateDepth store sid ≤ 1) := by omega
      simp [wrappedGetStore, wrappedGet, hp, shouldApplyPruning, hnle]

/-- C5 witness: reading `child` (depth 1) through the gate over `demoStore`
returns the result with the ancestry link absent and all else unchanged. -/
theorem gate_depth_policy_witness :
    wrappedGetStore demoStore (some "child") demoResult
      = { data := some { parentID := none, rest := () }, rest := () } :=
  (gate_depth_policy demoStore "child" demoResult
    { parentID := some "root", rest := () } rfl (by decide)).1 (by decide)

/-- C7: the completion-signal tool fails with the no-current-session error
when the invoking session cannot be resolved, fails with the
not-a-child-session error when the session resolves but has no ancestry
link, and on success returns confirmation metadata carrying the parent and
child session identifiers together with the submitted status, summary and
learnings. -/
theorem finish_task_contract (store : SessionStore) (params : FinishTaskParams)
    (sidMissing sidRootless sidChild parentID : String)
    (sroot schild : SessionInfo)
    (hmiss : store sidMissing = none)
    (hroot : store sidRootless = some sroot) (hrootless : sroot.parentID = none)
    (hchild : store sidChild = some schild) (hpar : schild.parentID = some parentID)
    (hne : parentID ≠ "") :
    finishTaskExecute store sidMissing params = .error "Cannot find current session" ∧
    finishTaskExecute store sidRootless params
      = .error "finish_task can only be called from a child session (orchestrator/subagent)" ∧
    ∃ r, finishTaskExecute store sidChild params = .ok r ∧
      r.metadata = { parentSessionID := parentID, childSessionID := sidChild,
                     status := params.status, summary := params.summary,
                     learnings := params.learnings } := by
  refine ⟨?_, ?_, ?_⟩
  · simp [finishTaskExecute, hmiss]
  · simp [finishTaskExecute, hroot, hrootless]
  · refine ⟨{ title := "Task " ++ params.status.toStr ++ ": " ++ params.summary.take 50 ++ "..."
            , metadata := { parentSessionID := parentID, childSessionID := sidChild,
                            status := params.status, summary := params.summary,
                            learnings := params.learnings }
            , output := "Task " ++ params.status.toStr
                ++ ". Control returned to parent agent.\n\nSummary: " ++ params.summary },
      ?_, rfl⟩
    simp [finishTaskExecute, hchild, hpar, hne]

/-- C7 witness: the three contract cases evaluated over `demoStore` at the
unknown identifier `ghost`, the rootless session `root`, and the child
session `child`. -/
theorem finish_task_contract_witness :
    finishTaskExecute demoStore "ghost" demoParams = .error "Cannot find current session" ∧
    finishTaskExecute demoStore "root" demoParams
      = .error "finish_task can only be called from a child session (orchestrator/subagent)" ∧
    ∃ r, finishTaskExecute demoStore "child" demoParams = .ok r ∧
      r.metadata = { parentSessionID := "root", childSessionID := "child",
                     status := demoParams.status, summary := demoParams.summary,
                     learnings := demoParams.learnings } :=
  finish_task_contract demoStore demoParams "ghost" "root" "child" "root"
    { parentID := none } { parentID := some "root" }
    (by decide) (by decide) rfl (by decide) rfl (by decide)

/-- C3 counterexample: in `cycStore`, a cycle of length 1 (at `s1`) is
reachable from the starting session `s0`, yet the standalone depth resolver
returns 2, which exceeds the cycle length — the claimed bound "at most k"
fails (the resolver counts every hop it traverses, prefix included). -/
theorem depth_cycle_bound_counterexample :
    reachableFrom cycStore "s0" "s1" ∧ hasCycleOfLength cycStore "s1" 1 ∧
      calculateDepth cycStore "s0" = 2 ∧ ¬(calculateDepth cycStore "s0" ≤ 1) :=
  ⟨⟨1, by decide⟩, ⟨by decide, by decide⟩, by decide, by decide⟩

/-- C3 amended: on any ancestry chain — cyclic ones included — the
standalone depth resolver terminates with a value at most the `MAX_DEPTH`
ceiling (though the value may exceed the length of a reachable cycle), while
the depth walk inlined in the task dispatcher, which has no visited set and
no ceiling, never terminates on a chain whose every reachable session is
truthy and has a parent — in particular on cyclic chains. -/
theorem depth_cycle_amended (store : SessionStore) (sid : String)
    (h : ∀ n, ∃ y, stepN store n (some sid) = some y ∧ y ≠ "") :
    calculateDepth store sid ≤ MAX_DEPTH ∧
      ∀ fuel, dispatchCalculateDepth store fuel sid = none := by
  constructor
  · have hle := calculateDepthLoop_le store MAX_DEPTH sid [] 0
    simpa [calculateDepth] using hle
  · intro fuel
    exact dispatchDepthLoop_none store fuel sid 0 h

/-- C3 amended witness: on the cyclic `cycStore` the resolver's value is
capped by `MAX_DEPTH`, and the dispatcher's inline walk is still running
after 1000 iterations. -/
theorem depth_cycle_amended_witness :
    calculateDepth cycStore "s0" ≤ MAX_DEPTH ∧
      dispatchCalculateDepth cycStore 1000 "s0" = none :=
  ⟨(depth_cycle_amended cycStore "s0" cycStore_alive).1,
   (depth_cycle_amended cycStore "s0" cycStore_alive).2 1000⟩

/-- C4: when the caller's cancellation signal is the first event a pending
persistent-mode dispatch observes, the dispatch settles rejected with the
task-aborted error and the finish listener is torn down — but the
tool-summary subscription (`unsub`) is still registered afterwards, because
`unsub()` is only reached after the awaited promise resolves, never when it
rejects.  This contradicts the claim that no event-bus subscription created
by the dispatch remains registered. -/
theorem abort_leaves_summary_subscription (csid : String) (rest : List TaskEvent) :
    (persistentDispatch csid (TaskEvent.abort :: rest)).settled
        = some (Except.error "Task aborted") ∧
    (persistentDispatch csid (TaskEvent.abort :: rest)).finishSubActive = false ∧
    (persistentDispatch csid (TaskEvent.abort :: rest)).unsubActive = true := by
  have hmain : persistentDispatch csid (TaskEvent.abort :: rest)
      = { settled := some (Except.error "Task aborted")
          finishSubActive := false
          unsubActive := true } := by
    unfold persistentDispatch
    rw [List.foldl_cons]
    rw [show persistentStep csid
          { settled := none, finishSubActive := true, unsubActive := true } TaskEvent.abort
        = { settled := some (Except.error "Task aborted")
            finishSubActive := false
            unsubActive := true } from rfl]
    exact foldl_persistentStep_settled csid rest _ rfl
  exact ⟨by rw [hmain], by rw [hmain], by rw [hmain]⟩

/-- C6 amended: for every acyclic ancestry chain of `N` hops from the start
to a rootless session, with `N` at most the resolver's `MAX_DEPTH` ceiling,
the depth resolver returns exactly `N` (for longer chains the ceiling caps
the result instead).  Session identifiers are nonempty, as produced by the
identifier scheme. -/
theorem depth_acyclic_chain_exact (store : SessionStore) (x : String)
    (rest : List String)
    (hlink : linkedChainB store (x :: rest) = true)
    (hnodup : (x :: rest).Nodup)
    (hne : ∀ y ∈ x :: rest, y ≠ "")
    (hlen : rest.length ≤ MAX_DEPTH) :
    calculateDepth store x = rest.length := by
  have h := calculateDepthLoop_chain store rest x [] 0 MAX_DEPTH hlink hnodup hne
    (by intro y _; simp) hlen
  simpa [calculateDepth] using h

/-- C6 amended witness: the two-hop store `demoStore` realises the chain
`child → root` of length 1, and the resolver returns exactly 1. -/
theorem depth_acyclic_chain_exact_witness : calculateDepth demoStore "child" = 1 :=
  depth_acyclic_chain_exact demoStore "child" ["root"]
    (by decide) (by decide) (by decide) (by decide)

set_option maxRecDepth 10000 in
/-- C6 counterexample: `longChainIDs` is an acyclic ancestry chain of 101
hops (102 distinct nonempty identifiers, head `s0`, last rootless), yet the
depth resolver returns 100, the `MAX_DEPTH` ceiling, not 101 — the claim
"returns exactly N" fails for chains longer than the ceiling. -/
theorem depth_ceiling_counterexample :
    linkedChainB (chainStore longChainIDs) longChainIDs = true ∧
    longChainIDs.Nodup ∧
    (∀ y ∈ longChainIDs, y ≠ "") ∧
    List.head? longChainIDs = some "s0" ∧
    longChainIDs.length - 1 = 101 ∧
    calculateDepth (chainStore longChainIDs) "s0" = 100 ∧
    (100 : Nat) ≠ 101 :=
  ⟨by decide, by decide, by decide, by decide, by decide, by decide, by decide⟩
